import Mathlib

/-!
Shallow embedding of `object.hpp` (huangqinjin/object): a reference-counted,
type-erased value container.  Control blocks (`object::placeholder`) carry an
unsigned 32-bit strong count (`refcounted refcount`), an unsigned 32-bit weak
count (`weakable weak`), a type tag and the payload.  Handles are nullable
pointers to control blocks, modelled as `Option Nat` over a heap
`Nat → Placeholder`.  Counter arithmetic is the C++ unsigned arithmetic,
modulo 2^32.
-/

namespace ObjectSpec

/-- Modulus of `object::refcounted::counter_t` (`unsigned int`, 32 bits). -/
def cmod : Nat := 2 ^ 32

/-- `refcounted::addref`: `refcount.fetch_add(1) + 1` in unsigned arithmetic. -/
def incW (c : Nat) : Nat := (c + 1) % cmod

/-- `refcounted::release`: `refcount.fetch_sub(1) - 1` in unsigned arithmetic. -/
def decW (c : Nat) : Nat := (c + (cmod - 1)) % cmod

/-- `refcounted::xref` (sequential): load `r`; if `r = 0` leave the counter and
return 0, otherwise CAS the counter to `r + 1` and return `r + 1` (both in
unsigned arithmetic).  First component is the new counter value, second the
return value. -/
def xref (c : Nat) : Nat × Nat :=
  if c = 0 then (c, 0) else (incW c, incW c)

/-- State of one control block (`object::placeholder` at the head of a
holder allocation): strong count, weak count, whether the payload is still
alive, and the recorded type tag (`type()`), abstracted as a `Nat`. -/
structure Placeholder where
  refcount : Nat
  weakcount : Nat
  alive : Bool
  ty : Nat
  deriving DecidableEq, Repr

/-- A freshly created holder: `refcounted` initializes `refcount = 1` and the
`weakable` member initializes its counter to 1 (the payload's own weak token). -/
def newHolder (t : Nat) : Placeholder :=
  { refcount := 1, weakcount := 1, alive := true, ty := t }

/-- Observable events of the teardown path, in program order. -/
inductive Event where
  | destroyPayload
  | decWeak
  | free
  deriving DecidableEq, Repr

/-- `holder<T>::destroy`: run `destruct()` (the payload destructor), then
`placeholder::destroy()`: release the weak count and, iff it reached 0,
`delete this` (free the allocation). -/
def holderDestroy (b : Placeholder) : Placeholder × List Event :=
  let w := decW b.weakcount
  ({ b with weakcount := w, alive := false },
   Event.destroyPayload :: Event.decWeak :: (if w = 0 then [Event.free] else []))

/-- `object::~object` acting on the pointed-to control block: `p->release()`,
and iff the result is 0, `p->destroy()`. -/
def objectDtor (b : Placeholder) : Placeholder × List Event :=
  let s := decW b.refcount
  if s = 0 then holderDestroy { b with refcount := s }
  else ({ b with refcount := s }, [])

/-- The heap: control-block state per block id. -/
abbrev Heap := Nat → Placeholder

/-- Pointwise heap update. -/
def Heap.update (σ : Heap) (i : Nat) (b : Placeholder) : Heap :=
  fun j => if j = i then b else σ j

/-- Effect on the heap of `if (p) p->addref()` for a handle. -/
def addrefHandle (σ : Heap) (h : Option Nat) : Heap :=
  match h with
  | none => σ
  | some i => σ.update i { σ i with refcount := incW (σ i).refcount }

/-- Effect on the heap of destroying an `object` holding handle `h`
(`if (p && p->release() == 0) p->destroy()`). -/
def releaseHandle (σ : Heap) (h : Option Nat) : Heap :=
  match h with
  | none => σ
  | some i => σ.update i (objectDtor (σ i)).1

lemma decW_eq_sub_one (c : Nat) (h1 : 0 < c) (h2 : c < cmod) : decW c = c - 1 := by
  unfold decW cmod
  unfold cmod at h2
  omega

lemma incW_eq_add_one (c : Nat) (h : c + 1 < cmod) : incW c = c + 1 := by
  unfold incW cmod
  unfold cmod at h
  omega

/-- C1: constructing a handle from a value allocates a holder with
strong-count 1 and weak-count 1; destroying a handle decrements the strong
count by exactly one; when it reaches 0 the payload destructor runs first,
then the weak count is decremented, and the allocation is freed exactly when
the weak count also reaches 0. -/
theorem refcount_lifecycle (b : Placeholder)
    (hs : 0 < b.refcount) (hsW : b.refcount < cmod)
    (hw : 0 < b.weakcount) (hwW : b.weakcount < cmod) :
    (∀ t, (newHolder t).refcount = 1 ∧ (newHolder t).weakcount = 1) ∧
    (objectDtor b).1.refcount = b.refcount - 1 ∧
    (b.refcount = 1 →
      (objectDtor b).2 = Event.destroyPayload :: Event.decWeak ::
        (if b.weakcount = 1 then [Event.free] else []) ∧
      (objectDtor b).1.weakcount = b.weakcount - 1 ∧
      (objectDtor b).1.alive = false) ∧
    (1 < b.refcount → (objectDtor b).2 = [] ∧
      (objectDtor b).1.weakcount = b.weakcount ∧
      (objectDtor b).1.alive = b.alive) := by
  have hdec : decW b.refcount = b.refcount - 1 := decW_eq_sub_one _ hs hsW
  have hdecw : decW b.weakcount = b.weakcount - 1 := decW_eq_sub_one _ hw hwW
  have hd1 : decW 1 = 0 := decW_eq_sub_one 1 (by decide) (by decide)
  refine ⟨fun t => ⟨rfl, rfl⟩, ?_, ?_, ?_⟩
  · simp only [objectDtor, hdec]
    by_cases h1 : b.refcount - 1 = 0
    · simp [h1, holderDestroy]
    · simp [h1]
  · intro h1
    simp only [objectDtor, hdec, h1, Nat.sub_self, if_pos rfl, holderDestroy, hdecw, hd1]
    refine ⟨?_, rfl, rfl⟩
    by_cases hw1 : b.weakcount = 1
    · simp [hw1]
    · have h2 : ¬ (b.weakcount - 1 = 0) := by omega
      simp [h2, hw1]
  · intro h1
    have h2 : ¬ (b.refcount - 1 = 0) := by omega
    simp [objectDtor, hdec, h2]

/-- Witness for C1 at a concrete block with strong = 1, weak = 1: the
teardown trace destroys the payload, drops the weak token, then frees. -/
theorem refcount_lifecycle_witness :
    (objectDtor { refcount := 1, weakcount := 1, alive := true, ty := 0 }).2 =
      Event.destroyPayload :: Event.decWeak ::
        (if (1 : Nat) = 1 then [Event.free] else []) :=
  ((refcount_lifecycle { refcount := 1, weakcount := 1, alive := true, ty := 0 }
    (by decide) (by decide) (by decide) (by decide)).2.2.1 rfl).1

/-- `object__str::operator=(object__str&& s)`:
`if (p != s.p) object__str(std::move(s)).swap(s); return *this;`.
Inputs are the stored character pointers of `*this` (`a`) and of `s` (`b`),
abstracted as `Option Nat`; the result is the final `(this->p, s.p)` together
with the list of pointers whose ownership unit the statement released
(the temporary's destructor releases its pointer when non-null). -/
def strMoveAssign (a b : Option Nat) : Option Nat × Option Nat × List Nat :=
  if a = b then (a, b, [])
  else
    let temp := b          -- object__str(std::move(s)): temp.p := s.p
    let s1 : Option Nat := none --                        s.p := nullptr
    let temp2 := s1        -- temp.swap(s): exchanges temp.p and s.p
    let s2 := temp
    (a, s2, temp2.toList)  -- ~temp releases temp.p when non-null; *this untouched

/-- C2 (code bug): with distinct non-null pointers 1 and 2, the string
move-assignment leaves the destination still holding pointer 1, leaves the
source still holding pointer 2, and releases nothing — it swaps into the
source `s` instead of `*this`, so standard move-assign semantics fail. -/
theorem strMoveAssign_noop :
    strMoveAssign (some 1) (some 2) = (some 1, some 2, []) ∧
    (some 1 : Option Nat) ≠ some 2 := by
  constructor
  · rfl
  · decide

/-- `object::operator=(const object&)` acting on the heap and the two stored
handles: `if (p != obj.p) object(obj).swap(*this);`.  On the not-taken branch
nothing happens; otherwise the copy constructor addrefs the source, the swap
installs it, and the temporary's destructor releases the old destination
handle.  Result: (heap, new destination handle). -/
def copyAssign (σ : Heap) (dst src : Option Nat) : Heap × Option Nat :=
  if dst = src then (σ, dst)
  else (releaseHandle (addrefHandle σ src) dst, src)

/-- `object::operator=(object&&)`: `if (p != obj.p) object(std::move(obj)).swap(*this);`.
The move constructor steals the source handle (source becomes null), the swap
installs it, and the temporary's destructor releases the old destination.
Result: (heap, new destination handle, new source handle). -/
def moveAssign (σ : Heap) (dst src : Option Nat) : Heap × Option Nat × Option Nat :=
  if dst = src then (σ, dst, src)
  else (releaseHandle σ dst, src, none)

/-- C8: self-assignment safety — when source and destination hold the same
control block (in particular `h = h` and `h = move(h)`), both copy- and
move-assignment leave the heap (hence the strong count) and the stored
handle unchanged. -/
theorem assign_self_safe (σ : Heap) (h : Option Nat) :
    copyAssign σ h h = (σ, h) ∧ moveAssign σ h h = (σ, h, h) := by
  constructor
  · simp [copyAssign]
  · simp [moveAssign]

/-- `object_cast<ValueType>(object* obj)` (pointer form) for a non-null
`obj` whose handle is `h`: `if (obj->p && obj->p->type() == type_id<V>())
return unsafe_object_cast<V>(obj); return nullptr;`.  The payload address is
identified by the id of the holder it lives in. -/
def object_cast (σ : Heap) (h : Option Nat) (req : Nat) : Option Nat :=
  match h with
  | none => none
  | some i => if (σ i).ty = req then some i else none

inductive CastError where
  | badObjectCast
  deriving DecidableEq, Repr

/-- Reference form of the exact cast (`CAST` macro):
`if (auto p = object_cast<V>(addressof(obj))) return *p; throw bad_object_cast{};`. -/
def object_cast_ref (σ : Heap) (h : Option Nat) (req : Nat) : Except CastError Nat :=
  match object_cast σ h req with
  | some a => Except.ok a
  | none => Except.error CastError.badObjectCast

/-- C5: the pointer-form exact cast returns the payload address iff the
handle is non-null and the holder's recorded type tag equals the requested
tag, and returns null in every other case (it is total and never raises);
the reference form returns the payload under the same condition and fails
with `bad_object_cast` otherwise, including on a null handle. -/
theorem object_cast_exact (σ : Heap) (h : Option Nat) (req : Nat) :
    (∀ a, object_cast σ h req = some a ↔ h = some a ∧ (σ a).ty = req) ∧
    ((h = none ∨ ∃ i, h = some i ∧ (σ i).ty ≠ req) → object_cast σ h req = none) ∧
    (∀ a, object_cast_ref σ h req = Except.ok a ↔ h = some a ∧ (σ a).ty = req) ∧
    (object_cast σ h req = none →
      object_cast_ref σ h req = Except.error CastError.badObjectCast) ∧
    (h = none → object_cast_ref σ h req = Except.error CastError.badObjectCast) := by
  have key : ∀ a, object_cast σ h req = some a ↔ h = some a ∧ (σ a).ty = req := by
    intro a
    constructor
    · intro he
      cases h with
      | none => simp [object_cast] at he
      | some i =>
        by_cases ht : (σ i).ty = req
        · simp [object_cast, ht] at he
          exact ⟨by rw [he], by rw [← he]; exact ht⟩
        · simp [object_cast, ht] at he
    · rintro ⟨rfl, ht⟩
      simp [object_cast, ht]
  refine ⟨key, ?_, ?_, ?_, ?_⟩
  · rintro (rfl | ⟨i, rfl, ht⟩)
    · rfl
    · simp [object_cast, ht]
  · intro a
    rw [← key a]
    cases he : object_cast σ h req with
    | none => simp [object_cast_ref, he]
    | some b => simp [object_cast_ref, he]
  · intro he
    simp [object_cast_ref, he]
  · rintro rfl
    rfl

/-- Witness for C5: on a single-block heap whose holder has tag 7, casting
to tag 7 returns the payload and casting to tag 8 returns null. -/
theorem object_cast_exact_witness :
    object_cast (fun _ => newHolder 7) (some 0) 7 = some 0 ∧
    object_cast (fun _ => newHolder 7) (some 0) 8 = none := by
  constructor
  · exact ((object_cast_exact (fun _ => newHolder 7) (some 0) 7).1 0).mpr ⟨rfl, rfl⟩
  · exact (object_cast_exact (fun _ => newHolder 7) (some 0) 8).2.1
      (Or.inr ⟨0, rfl, by decide⟩)

/-- Construction mode of one array element. -/
inductive ElemInit where
  | value
  | default
  deriving DecidableEq, Repr

/-- State of a `held<T[]>`: the stored length word `n` and, per element in
index order, how it was constructed. -/
structure HeldArr where
  n : Nat
  elems : List ElemInit
  deriving DecidableEq, Repr

/-- `held<T[]>::held(std::ptrdiff_t n, void* this1) : n(std::abs(n))`:
if the argument `n` is positive, `uninitialized_value_construct_n` runs on
`|n|` elements, otherwise `uninitialized_default_construct_n` does. -/
def heldArr_create (n : Int) : HeldArr :=
  if n > 0 then { n := n.natAbs, elems := List.replicate n.natAbs ElemInit.value }
  else { n := n.natAbs, elems := List.replicate n.natAbs ElemInit.default }

/-- `held<T[]>::length()`: returns the stored `n`. -/
def HeldArr.length (h : HeldArr) : Nat := h.n

/-- C6: for every nonzero runtime length argument `n`, the created variable
array holder stores length `|n|`; if `n` is positive all `|n|` elements are
value-initialized, and if `n` is negative they are default-initialized. -/
theorem heldArr_create_spec (n : Int) (hn : n ≠ 0) :
    (heldArr_create n).length = n.natAbs ∧
    (0 < n → (heldArr_create n).elems = List.replicate n.natAbs ElemInit.value) ∧
    (n < 0 → (heldArr_create n).elems = List.replicate n.natAbs ElemInit.default) := by
  refine ⟨?_, ?_, ?_⟩
  · by_cases h : n > 0 <;> simp [heldArr_create, HeldArr.length, h]
  · intro h
    simp [heldArr_create, h]
  · intro h
    have h2 : ¬ n > 0 := by omega
    simp [heldArr_create, h2]

/-- Witness for C6 at `n = -3`: length 3, all elements default-initialized. -/
theorem heldArr_create_witness :
    (heldArr_create (-3)).length = 3 ∧
    (heldArr_create (-3)).elems = List.replicate 3 ElemInit.default := by
  have h := heldArr_create_spec (-3) (by decide)
  exact ⟨h.1, h.2.2 (by decide)⟩

/-- `held<T[]>::destruct(void* this1)`: the loop
`for (T* q = value, *p = q + n; p != q; ) destroy_at(addressof(*--p));`,
as the trace of destroyed element indices: the loop variable starts at `n`
and each iteration first decrements it, then destroys that element. -/
def heldArr_destruct : Nat → List Nat
  | 0 => []
  | p + 1 => p :: heldArr_destruct p

/-- `object::destroy_at` on a raw array of extent `N`:
`for (std::size_t i = N; i > 0; --i) destroy_at(addressof((*p)[i - 1]))`,
as the trace of destroyed element indices. -/
def destroy_at_arr : Nat → List Nat
  | 0 => []
  | i + 1 => i :: destroy_at_arr i

lemma heldArr_destruct_eq (n : Nat) :
    heldArr_destruct n = (List.range n).reverse := by
  induction n with
  | zero => rfl
  | succ m ih => simp [heldArr_destruct, List.range_succ, ih]

lemma destroy_at_arr_eq (n : Nat) :
    destroy_at_arr n = (List.range n).reverse := by
  induction n with
  | zero => rfl
  | succ m ih => simp [destroy_at_arr, List.range_succ, ih]

/-- C7: destroying an array holder (runtime length, via
`held<T[]>::destruct`) or a fixed-length raw array (via `object::destroy_at`)
runs the element destructors for indices `n-1, n-2, …, 0` in exactly that
order, and each index below `n` is destroyed exactly once. -/
theorem array_destruct_order (n : Nat) :
    heldArr_destruct n = (List.range n).reverse ∧
    destroy_at_arr n = (List.range n).reverse ∧
    (∀ i, i < n → (heldArr_destruct n).count i = 1) ∧
    (∀ i, i < n → (destroy_at_arr n).count i = 1) := by
  have hc : ∀ i, i < n → ((List.range n).reverse.count i = 1) := by
    intro i hi
    rw [List.count_reverse]
    exact List.count_eq_one_of_mem (List.nodup_range n) (List.mem_range.mpr hi)
  exact ⟨heldArr_destruct_eq n, destroy_at_arr_eq n,
    fun i hi => by rw [heldArr_destruct_eq]; exact hc i hi,
    fun i hi => by rw [destroy_at_arr_eq]; exact hc i hi⟩

/-- Witness for C7 at `n = 3`: destruction order is `[2, 1, 0]` and index 1
is destroyed exactly once. -/
theorem array_destruct_order_witness :
    heldArr_destruct 3 = (List.range 3).reverse ∧
    (heldArr_destruct 3).count 1 = 1 := by
  have h := array_destruct_order 3
  exact ⟨h.1, h.2.2.1 1 (by decide)⟩

/-- `object__weak::expired()`: `!p || p->count() <= 0` (the counter is
unsigned, so `<= 0` means `= 0`). -/
def weakExpired (σ : Heap) (w : Option Nat) : Bool :=
  match w with
  | none => true
  | some i => (σ i).refcount ≤ 0

/-- `object__weak::lock()`: `object(p && p->xref() ? p : nullptr)` — when the
weak pointer is non-null, `xref` runs on the strong counter (mutating the
heap); the resulting strong handle is the block iff `xref` returned non-zero.
Result: (heap after, returned strong handle). -/
def weakLock (σ : Heap) (w : Option Nat) : Heap × Option Nat :=
  match w with
  | none => (σ, none)
  | some i =>
    let r := xref (σ i).refcount
    (σ.update i { σ i with refcount := r.1 }, if r.2 ≠ 0 then some i else none)

inductive WeakError where
  | badWeakObject
  deriving DecidableEq, Repr

/-- `object__weak::operator object()`: `object obj = lock(); if (!obj) throw
bad_weak_object{}; return obj;`. -/
def weakToObject (σ : Heap) (w : Option Nat) : Heap × Except WeakError Nat :=
  let r := weakLock σ w
  match r.2 with
  | none => (r.1, Except.error WeakError.badWeakObject)
  | some i => (r.1, Except.ok i)

/-- C4: `expired()` is true iff the weak handle is null or the strong count
is 0; `lock()` succeeds — returning a strong handle to the same block after
raising the strong count from a value `> 0` to that value plus one — iff the
strong count was nonzero, and returns the null handle (heap unchanged
pointwise) otherwise; the conversion to a strong handle yields `lock()`'s
result, failing with `bad_weak_object` exactly when `lock()` yields null. -/
theorem weak_ops (σ : Heap) (w : Option Nat)
    (hW : ∀ i, w = some i → (σ i).refcount + 1 < cmod) :
    (weakExpired σ w = true ↔
      (w = none ∨ ∃ i, w = some i ∧ (σ i).refcount = 0)) ∧
    (∀ i, w = some i → 0 < (σ i).refcount →
      (weakLock σ w).2 = some i ∧
      ((weakLock σ w).1 i).refcount = (σ i).refcount + 1 ∧
      (∀ j, j ≠ i → (weakLock σ w).1 j = σ j)) ∧
    (∀ i, w = some i → (σ i).refcount = 0 →
      (weakLock σ w).2 = none ∧ (∀ j, (weakLock σ w).1 j = σ j)) ∧
    (w = none → weakLock σ w = (σ, none)) ∧
    ((weakLock σ w).2 = none →
      (weakToObject σ w).2 = Except.error WeakError.badWeakObject) ∧
    (∀ i, (weakLock σ w).2 = some i → (weakToObject σ w).2 = Except.ok i) := by
  refine ⟨?_, ?_, ?_, ?_, ?_, ?_⟩
  · cases w with
    | none => simp [weakExpired]
    | some i => simp [weakExpired, Nat.le_zero]
  · rintro i rfl hpos
    have hinc : incW (σ i).refcount = (σ i).refcount + 1 :=
      incW_eq_add_one _ (hW i rfl)
    have hne : (σ i).refcount ≠ 0 := by omega
    have hxr : xref (σ i).refcount = ((σ i).refcount + 1, (σ i).refcount + 1) := by
      simp [xref, hne, hinc]
    refine ⟨?_, ?_, ?_⟩
    · simp only [weakLock, hxr]
      have : (σ i).refcount + 1 ≠ 0 := by omega
      simp [this]
    · simp [weakLock, hxr, Heap.update]
    · intro j hj
      simp [weakLock, hxr, Heap.update, hj]
  · rintro i rfl hzero
    have hxr : xref (σ i).refcount = ((σ i).refcount, 0) := by
      simp [xref, hzero]
    refine ⟨by simp [weakLock, hxr], ?_⟩
    intro j
    by_cases hj : j = i
    · subst hj
      simp [weakLock, hxr, Heap.update]
    · simp [weakLock, hxr, Heap.update, hj]
  · rintro rfl
    rfl
  · intro hnone
    simp [weakToObject, hnone]
  · intro i hi
    simp [weakToObject, hi]

/-- Witness for C4 on a single-block heap with strong count 1: the weak
handle is not expired and `lock()` returns the block with count 2. -/
theorem weak_ops_witness :
    (weakLock (fun _ => newHolder 0) (some 0)).2 = some 0 ∧
    ((weakLock (fun _ => newHolder 0) (some 0)).1 0).refcount = 2 := by
  have h := (weak_ops (fun _ => newHolder 0) (some 0)
    (fun i hi => by cases hi; decide)).2.1 0 rfl (by decide)
  exact ⟨h.1, h.2.1⟩

/-- `object__atomic::compare_exchange_strong(expected, desired)` in the
sequential (uncontended) setting, acting on the logical cell value:
`object obj(lock_and_load(...))` adopts the cell's reference; on identity
match the cell is unlocked to `desired.release()` and the function returns
true (the adopted old reference is released when `obj` dies); on mismatch
the observed handle is addref'd, the cell is unlocked back to it, and
`obj.swap(expected)` places it in the expected slot, whose previous handle
is released when `obj` dies.  Result: (flag, heap, cell, expected). -/
def compare_exchange_strong (σ : Heap) (cell expected desired : Option Nat) :
    Bool × Heap × Option Nat × Option Nat :=
  let obj := cell
  if obj = expected then
    (true, releaseHandle σ obj, desired, expected)
  else
    let σ1 := addrefHandle σ obj
    (false, releaseHandle σ1 expected, obj, obj)

/-- C3: comparing by control-block identity, `compare_exchange_strong` on
match stores `desired` into the cell and returns true; on mismatch it leaves
the cell's stored handle unchanged, loads the currently stored handle into
the expected slot with that handle's strong count incremented by one, and
returns false. -/
theorem cas_strong_spec (σ : Heap) (cell expected desired : Option Nat)
    (hW : ∀ b, cell = some b → (σ b).refcount + 1 < cmod) :
    (cell = expected →
      (compare_exchange_strong σ cell expected desired).1 = true ∧
      (compare_exchange_strong σ cell expected desired).2.2.1 = desired) ∧
    (cell ≠ expected →
      (compare_exchange_strong σ cell expected desired).1 = false ∧
      (compare_exchange_strong σ cell expected desired).2.2.1 = cell ∧
      (compare_exchange_strong σ cell expected desired).2.2.2 = cell ∧
      (∀ b, cell = some b →
        ((compare_exchange_strong σ cell expected desired).2.1 b).refcount =
          (σ b).refcount + 1)) := by
  constructor
  · intro he
    simp [compare_exchange_strong, he]
  · intro hne
    refine ⟨by simp [compare_exchange_strong, hne], by simp [compare_exchange_strong, hne],
      by simp [compare_exchange_strong, hne], ?_⟩
    rintro b rfl
    have hinc : incW (σ b).refcount = (σ b).refcount + 1 :=
      incW_eq_add_one _ (hW b rfl)
    simp only [compare_exchange_strong, if_neg hne]
    cases expected with
    | none => simp [releaseHandle, addrefHandle, Heap.update, hinc]
    | some e =>
      have hbe : b ≠ e := fun h => hne (by rw [h])
      simp [releaseHandle, addrefHandle, Heap.update, hbe, hinc]

/-- Witness for C3 on a two-block heap: a CAS whose expected handle (block 1)
differs from the cell's stored handle (block 0) fails, leaves the cell at
block 0, loads block 0 into the expected slot, and raises block 0's strong
count to 2. -/
theorem cas_strong_witness :
    (compare_exchange_strong (fun _ => newHolder 0) (some 0) (some 1) none).1 = false ∧
    (compare_exchange_strong (fun _ => newHolder 0) (some 0) (some 1) none).2.2.2 = some 0 ∧
    ((compare_exchange_strong (fun _ => newHolder 0) (some 0) (some 1) none).2.1 0).refcount = 2 := by
  have h := (cas_strong_spec (fun _ => newHolder 0) (some 0) (some 1) none
    (fun b hb => by cases hb; decide)).2 (by decide)
  exact ⟨h.1, h.2.2.1, h.2.2.2 0 rfl⟩

/-- Low two tag bits of the atomic cell's storage word (`v & mask` with
`mask = 3`): 0 = FREE, 1 = LOCKED, 2 = WAITING, 3 = CONDITION. -/
def tagBits (v : Nat) : Nat := v % 4

/-- Handle bits of the storage word (`v & ~mask`). -/
def ptrBits (v : Nat) : Nat := v - v % 4

/-- `object__atomic::lock_and_load` on the uncontended path: when the tag is
FREE (0) or CONDITION (3) the CAS to `(v & ~mask) | locked` succeeds and the
handle bits are returned.  A LOCKED or WAITING tag would park the thread;
that path returns `none` in this sequential model.  Result on success:
(new storage word, loaded handle bits). -/
def lock_and_load (v : Nat) : Option (Nat × Nat) :=
  if tagBits v = 0 ∨ tagBits v = 3 then some (ptrBits v + 1, ptrBits v)
  else none

/-- `object__atomic::try_lock`: fails if the tag is LOCKED or WAITING;
otherwise (sequentially) the CAS to `(v & ~mask) | locked` succeeds.
Result: (new storage word, success flag). -/
def try_lock (v : Nat) : Nat × Bool :=
  if tagBits v ≠ 0 ∧ tagBits v ≠ 3 then (v, false)
  else (ptrBits v + 1, true)

/-- `object__atomic::unlock`: load the word, then
`store_and_unlock((handle)(v & ~mask))` — the word becomes the bare handle
bits with tag FREE. -/
def cellUnlock (v : Nat) : Nat := ptrBits v

lemma ptrBits_mod (v : Nat) : ptrBits v % 4 = 0 := by
  simp only [ptrBits]
  omega

lemma ptrBits_succ_of_locked (v : Nat) : ptrBits (ptrBits v + 1) = ptrBits v := by
  have h := ptrBits_mod v
  simp only [ptrBits] at h ⊢
  omega

/-- C9: from an unlocked cell (tag FREE or CONDITION), `lock()` acquires the
word with tag LOCKED and `unlock()` then restores the word to exactly the
handle bits held before the lock — the stored handle value is preserved
across lock/unlock and only the two low tag bits transition; likewise a
successful `try_lock()` followed by `unlock()`. -/
theorem lock_unlock_frame (v : Nat) (h : tagBits v = 0 ∨ tagBits v = 3) :
    lock_and_load v = some (ptrBits v + 1, ptrBits v) ∧
    tagBits (ptrBits v + 1) = 1 ∧
    cellUnlock (ptrBits v + 1) = ptrBits v ∧
    ptrBits (cellUnlock (ptrBits v + 1)) = ptrBits v ∧
    (try_lock v).2 = true ∧
    cellUnlock (try_lock v).1 = ptrBits v := by
  have hp := ptrBits_mod v
  have hs := ptrBits_succ_of_locked v
  have htry : try_lock v = (ptrBits v + 1, true) := by
    have : ¬ (tagBits v ≠ 0 ∧ tagBits v ≠ 3) := by tauto
    simp [try_lock, this]
  refine ⟨by simp [lock_and_load, h], ?_, ?_, ?_, ?_, ?_⟩
  · simp only [tagBits] at hp ⊢
    omega
  · simpa [cellUnlock] using hs
  · simp only [cellUnlock, hs]
    simp only [ptrBits] at hp ⊢
    omega
  · rw [htry]
  · rw [htry]
    simpa [cellUnlock] using hs

/-- Witness for C9 at word 12 (handle bits 12, tag FREE): lock produces word
13 (tag LOCKED), unlock restores word 12. -/
theorem lock_unlock_frame_witness :
    lock_and_load 12 = some (13, 12) ∧ cellUnlock 13 = 12 := by
  have h := lock_unlock_frame 12 (Or.inl (by decide))
  exact ⟨h.1, h.2.2.1⟩

/-- Result of `object::emplace<T>`: whether the payload construction
succeeded, the heap afterwards, and the object's stored handle afterwards. -/
structure EmplaceResult where
  ok : Bool
  heap : Heap
  handle : Option Nat

/-- `object::emplace<ValueType>(args...)`:
`auto q = holder<U>::create(args...); object old(std::exchange(p, q));`.
`create` allocates and constructs the payload first; if allocation or the
payload constructor throws, the exception propagates before `p` is touched
(the partially built allocation is returned via the matching `operator
delete`, never published to the heap).  On success the fresh holder `q`
(strong 1, weak 1) is installed and the temporary `old` releases the
previously held handle exactly once. -/
def emplaceOp (σ : Heap) (h : Option Nat) (ctorThrows : Bool) (q t : Nat) :
    EmplaceResult :=
  if ctorThrows then { ok := false, heap := σ, handle := h }
  else { ok := true, heap := releaseHandle (σ.update q (newHolder t)) h, handle := some q }

/-- C10: `emplace` is atomic on failure — if allocation or the payload
constructor throws, the object still holds its previous control block and
the heap is unchanged; on success the object holds the fresh holder (strong
1, weak 1), the old handle's block has been released exactly once, and every
other block is untouched. -/
theorem emplace_atomic (σ : Heap) (h : Option Nat) (q t : Nat)
    (hfresh : h ≠ some q) :
    emplaceOp σ h true q t = { ok := false, heap := σ, handle := h } ∧
    (emplaceOp σ h false q t).ok = true ∧
    (emplaceOp σ h false q t).handle = some q ∧
    (emplaceOp σ h false q t).heap q = newHolder t ∧
    (∀ i, h = some i → (emplaceOp σ h false q t).heap i = (objectDtor (σ i)).1) ∧
    (∀ j, j ≠ q → h ≠ some j → (emplaceOp σ h false q t).heap j = σ j) := by
  refine ⟨rfl, rfl, rfl, ?_, ?_, ?_⟩
  · have hq : ∀ i, h = some i → i ≠ q := by
      rintro i rfl hiq
      exact hfresh (by rw [hiq])
    cases h with
    | none => simp [emplaceOp, releaseHandle, Heap.update]
    | some i =>
      have hiq : i ≠ q := hq i rfl
      have hqi : q ≠ i := fun hh => hiq hh.symm
      simp [emplaceOp, releaseHandle, Heap.update, hqi]
  · rintro i rfl
    have hiq : i ≠ q := fun hh => hfresh (by rw [hh])
    simp [emplaceOp, releaseHandle, Heap.update, hiq]
  · intro j hjq hjh
    cases h with
    | none => simp [emplaceOp, releaseHandle, Heap.update, hjq]
    | some i =>
      have hji : j ≠ i := fun hh => hjh (by rw [hh])
      simp [emplaceOp, releaseHandle, Heap.update, hjq, hji]

/-- Witness for C10 on a single-block heap with the object holding block 0
and the fresh holder at block 1: the throwing path leaves the state alone,
and the successful path installs block 1 with strong count 1. -/
theorem emplace_atomic_witness :
    emplaceOp (fun _ => newHolder 5) (some 0) true 1 9 =
      { ok := false, heap := fun _ => newHolder 5, handle := some 0 } ∧
    (emplaceOp (fun _ => newHolder 5) (some 0) false 1 9).handle = some 1 ∧
    (emplaceOp (fun _ => newHolder 5) (some 0) false 1 9).heap 1 = newHolder 9 := by
  have h := emplace_atomic (fun _ => newHolder 5) (some 0) 1 9 (by decide)
  exact ⟨h.1, h.2.2.1, h.2.2.2.1⟩

end ObjectSpec
